import Mathlib

/-!
Verification of the change-detection pass (`SubjectChangedColumnsComputer`) and of
`DeleteQueryBuilder.execute` of the persistence engine, via a shallow embedding of the
TypeScript source.  JavaScript values are modelled by an inductive `Value` type in which
object identity (the semantics of `===` on objects) is carried by an explicit allocation id.
-/

/-- A JavaScript value as used by the change-detection pass.  Objects and arrays carry an
allocation id modelling reference identity. -/
inductive Value where
  | undef : Value
  | null : Value
  | boolV (b : Bool) : Value
  | intV (n : Int) : Value
  | strV (s : String) : Value
  | obj (id : Nat) (fields : List (String × Value)) : Value
  | arr (id : Nat) (elems : List Value) : Value

/-- Test for the JavaScript value `undefined`. -/
def Value.isUndef : Value → Bool
  | Value.undef => true
  | _ => false

/-- Test for the JavaScript value `null`. -/
def Value.isNull : Value → Bool
  | Value.null => true
  | _ => false

/-- JavaScript strict equality `===`: primitives by value, objects and arrays by reference. -/
def jsStrictEq : Value → Value → Bool
  | Value.undef, Value.undef => true
  | Value.null, Value.null => true
  | Value.boolV a, Value.boolV b => a == b
  | Value.intV a, Value.intV b => a == b
  | Value.strV a, Value.strV b => a == b
  | Value.obj i _, Value.obj j _ => i == j
  | Value.arr i _, Value.arr j _ => i == j
  | _, _ => false

/-- JavaScript `x instanceof Object`: true exactly for objects and arrays. -/
def isInstanceOfObject : Value → Bool
  | Value.obj _ _ => true
  | Value.arr _ _ => true
  | _ => false

/-- Modelled from the spec: the property access underlying the missing
`ColumnMetadata.getEntityValue` / `RelationMetadata.getEntityValue` (not under src/) — reads
the named property of an entity object; a missing property reads as `undefined`. -/
def getProperty (propertyName : String) : Value → Value
  | Value.obj _ fields =>
      match fields.lookup propertyName with
      | some v => v
      | none => Value.undef
  | _ => Value.undef

/-- The column types the change-detection pass treats specially
(`SubjectChangedColumnsComputer.computeDiffColumns`, lines 70-88): `"date"`, `"time"`,
`"datetime"`, the `Date` class, `"json"`, `"jsonb"`, `"sample-array"`; anything else is
compared without normalization. -/
inductive ColumnType where
  | dateType : ColumnType
  | timeType : ColumnType
  | datetimeType : ColumnType
  | classDate : ColumnType
  | jsonType : ColumnType
  | jsonbType : ColumnType
  | sampleArrayType : ColumnType
  | otherType (name : String) : ColumnType
deriving DecidableEq, Repr

/-- An owning relation with a join column, as consumed by the change-detection pass:
its property name on the entity and the property names of the referenced primary key. -/
structure RelationMetadata where
  propertyName : String
  referencedPkNames : List String
deriving DecidableEq, Repr

/-- The part of a column's metadata read by `computeDiffColumns`: property name, type, the
five special-role flags, and the owning relation backing the column, when there is one. -/
structure ColumnMetadata where
  propertyName : String
  columnType : ColumnType
  isVirtual : Bool
  isDiscriminator : Bool
  isUpdateDate : Bool
  isVersion : Bool
  isCreateDate : Bool
  relationMetadata : Option RelationMetadata
deriving DecidableEq, Repr

/-- The part of an entity's metadata the pass iterates over: `columns` and
`relationsWithJoinColumns`. -/
structure EntityMetadata where
  columns : List ColumnMetadata
  relationsWithJoinColumns : List RelationMetadata
deriving Repr

/-- Modelled from the spec: a date-like value is an object carrying calendar fields;
this helper reads one such integer field (ValueNormalizer collaborator, not under src/). -/
def fieldInt (fields : List (String × Value)) (k : String) : Int :=
  match fields.lookup k with
  | some (Value.intV n) => n
  | _ => 0

/-- Modelled from the spec: missing `DateUtils.mixedDateToDateString` — renders a date-like
object to its calendar-date string and passes any other value through unchanged. -/
def mixedDateToDateString : Value → Value
  | Value.obj _ fs =>
      Value.strV (toString (fieldInt fs "year") ++ "-" ++ toString (fieldInt fs "month")
        ++ "-" ++ toString (fieldInt fs "day"))
  | v => v

/-- Modelled from the spec: missing `DateUtils.mixedDateToTimeString` — renders a date-like
object to its time-of-day string and passes any other value through unchanged. -/
def mixedDateToTimeString : Value → Value
  | Value.obj _ fs =>
      Value.strV (toString (fieldInt fs "hour") ++ ":" ++ toString (fieldInt fs "minute")
        ++ ":" ++ toString (fieldInt fs "second"))
  | v => v

/-- Modelled from the spec: missing `DateUtils.mixedDateToUtcDatetimeString` — renders a
date-like object to a normalized UTC timestamp string and passes any other value through
unchanged. -/
def mixedDateToUtcDatetimeString : Value → Value
  | Value.obj _ fs =>
      Value.strV (toString (fieldInt fs "year") ++ "-" ++ toString (fieldInt fs "month")
        ++ "-" ++ toString (fieldInt fs "day") ++ " " ++ toString (fieldInt fs "hour")
        ++ ":" ++ toString (fieldInt fs "minute") ++ ":" ++ toString (fieldInt fs "second")
        ++ " UTC")
  | v => v

/-- Modelled from the spec: the element rendering used by the delimited-array join
(`Array.prototype.join` on the array's elements). -/
def valueToPlainString : Value → String
  | Value.strV s => s
  | Value.intV n => toString n
  | Value.boolV b => toString b
  | _ => ""

/-- Modelled from the spec: missing `DateUtils.simpleArrayToString` — joins an array value
into one comma-delimited string and passes any other value through unchanged. -/
def simpleArrayToString : Value → Value
  | Value.arr _ es => Value.strV (String.intercalate "," (es.map valueToPlainString))
  | v => v

mutual

/-- Modelled from the spec: canonical JSON serialization (`JSON.stringify`) of a value. -/
def jsonStringify : Value → String
  | Value.undef => "null"
  | Value.null => "null"
  | Value.boolV b => toString b
  | Value.intV n => toString n
  | Value.strV s => "\"" ++ s ++ "\""
  | Value.obj _ fs => "\x7b" ++ jsonStringifyFields fs ++ "\x7d"
  | Value.arr _ es => "[" ++ jsonStringifyElems es ++ "]"

/-- Serialization of an object's field list. -/
def jsonStringifyFields : List (String × Value) → String
  | [] => ""
  | [(k, v)] => "\"" ++ k ++ "\":" ++ jsonStringify v
  | (k, v) :: rest => "\"" ++ k ++ "\":" ++ jsonStringify v ++ "," ++ jsonStringifyFields rest

/-- Serialization of an array's element list. -/
def jsonStringifyElems : List Value → String
  | [] => ""
  | [v] => jsonStringify v
  | v :: rest => jsonStringify v ++ "," ++ jsonStringifyElems rest

end

/-- The value stored in a change record: either a plain value, or — for a related entity
that is itself pending insertion in the same batch — a reference to that sibling Subject,
modelled by its index in the batch list (lines 153-157 of the source). -/
inductive ChangeValue where
  | plain (v : Value) : ChangeValue
  | subjectRef (index : Nat) : ChangeValue

/-- One entry of `subject.changeMaps`: the pushed records carry either a `column` or a
`relation` tag together with the value to write. -/
structure ChangeMap where
  column : Option ColumnMetadata
  relation : Option RelationMetadata
  value : ChangeValue

/-- The part of a `Subject` read and written by the change-detection pass: its metadata, the
persisted entity (`none` when not set), the database snapshot (`none` when not loaded), the
pending-insert intent, and the three output lists. -/
structure Subject where
  metadata : EntityMetadata
  entity : Option Value
  databaseEntity : Option Value
  mustBeInserted : Bool
  diffColumns : List ColumnMetadata
  diffRelations : List RelationMetadata
  changeMaps : List ChangeMap

/-- Modelled from the spec: missing `EntityMetadata.compareIds` — "normalize both sides to a
primary-key-value map and compare field-by-field; equal ⇒ no change".  Two id maps are equal
when they carry the same fields with strictly-equal values; a `null`/`undefined` side never
compares equal; non-map sides compare by strict equality. -/
def compareIds (a b : Value) : Bool :=
  match a, b with
  | Value.null, _ => false
  | Value.undef, _ => false
  | _, Value.null => false
  | _, Value.undef => false
  | Value.obj _ fa, Value.obj _ fb =>
      fa.length == fb.length &&
      fa.all (fun kv =>
        match fb.lookup kv.1 with
        | some v => jsStrictEq kv.2 v
        | none => false)
  | x, y => jsStrictEq x y

/-- Modelled from the spec: missing `RelationMetadata.getRelationIdMap` — reduces a related
entity to the map of the relation's referenced primary-key properties and their values. -/
def RelationMetadata.getRelationIdMap (r : RelationMetadata) (v : Value) : Value :=
  Value.obj 0 (r.referencedPkNames.map (fun pk => (pk, getProperty pk v)))

/-- The special-column guard of `computeDiffColumns` (lines 41-46): virtual, discriminator,
update-date, version and create-date columns are ignored. -/
def columnExcluded (c : ColumnMetadata) : Bool :=
  c.isVirtual || c.isDiscriminator || c.isUpdateDate || c.isVersion || c.isCreateDate

/-- The relational-column filter of `computeDiffColumns` (lines 61-66): when the column is
backed by a relation whose value on the entity is neither `null` nor `undefined`, the plain
column comparison is skipped. -/
def relationFilterApplies (c : ColumnMetadata) (entity : Value) : Bool :=
  match c.relationMetadata with
  | some r =>
      let v := getProperty r.propertyName entity
      !v.isNull && !v.isUndef
  | none => false

/-- The normalization block of `computeDiffColumns` (lines 67-89): the entity-side value is
normalized by column type; for datetime, json and delimited-array columns the database side
is re-normalized as well. -/
def normalizePair (c : ColumnMetadata) (entityValue databaseValue : Value) : Value × Value :=
  if !entityValue.isNull && !entityValue.isUndef then
    match c.columnType with
    | ColumnType.dateType => (mixedDateToDateString entityValue, databaseValue)
    | ColumnType.timeType => (mixedDateToTimeString entityValue, databaseValue)
    | ColumnType.datetimeType =>
        (mixedDateToUtcDatetimeString entityValue, mixedDateToUtcDatetimeString databaseValue)
    | ColumnType.classDate =>
        (mixedDateToUtcDatetimeString entityValue, mixedDateToUtcDatetimeString databaseValue)
    | ColumnType.jsonType =>
        (Value.strV (jsonStringify entityValue),
          if !databaseValue.isNull && !databaseValue.isUndef then
            Value.strV (jsonStringify databaseValue)
          else databaseValue)
    | ColumnType.jsonbType =>
        (Value.strV (jsonStringify entityValue),
          if !databaseValue.isNull && !databaseValue.isUndef then
            Value.strV (jsonStringify databaseValue)
          else databaseValue)
    | ColumnType.sampleArrayType =>
        (simpleArrayToString entityValue, simpleArrayToString databaseValue)
    | ColumnType.otherType _ => (entityValue, databaseValue)
  else (entityValue, databaseValue)

/-- The column upsert of `computeDiffColumns` (lines 96-106): update the value of the first
change record already tagged with this column, else append a new column-tagged record. -/
def upsertColumnChange : List ChangeMap → ColumnMetadata → ChangeValue → List ChangeMap
  | [], c, v => [{ column := some c, relation := none, value := v }]
  | cm :: rest, c, v =>
      if cm.column = some c then { cm with value := v } :: rest
      else cm :: upsertColumnChange rest c v

/-- The change-recording tail of the column pass (lines 95-106): always push the column onto
`diffColumns`, then upsert its change record. -/
def applyColumnChange (s : Subject) (c : ColumnMetadata) (entityValue : Value) : Subject :=
  { s with diffColumns := s.diffColumns ++ [c],
           changeMaps := upsertColumnChange s.changeMaps c (ChangeValue.plain entityValue) }

/-- The body of the `forEach` over `subject.metadata.columns` in `computeDiffColumns`
(lines 38-107), acting on the accumulated subject state. -/
def computeColumnStep (entity : Value) (dbEntity : Option Value) (s : Subject)
    (c : ColumnMetadata) : Subject :=
  if columnExcluded c then s
  else
    let entityValue := getProperty c.propertyName entity
    if entityValue.isUndef then s
    else
      match dbEntity with
      | some dbe =>
          if relationFilterApplies c entity then s
          else
            let databaseValue := getProperty c.propertyName dbe
            let p := normalizePair c entityValue databaseValue
            if jsStrictEq p.1 p.2 then s
            else applyColumnChange s c entityValue
      | none => applyColumnChange s c entityValue

/-- `SubjectChangedColumnsComputer.computeDiffColumns` (lines 32-108). -/
def computeDiffColumns (s : Subject) : Subject :=
  match s.entity with
  | none => s
  | some entity => s.metadata.columns.foldl (computeColumnStep entity s.databaseEntity) s

/-- The entity-side value passed to the id comparison (lines 136-138): a non-null value that
is an `Object` is reduced to its relation-id map; anything else is passed through as-is. -/
def relationIdValue (r : RelationMetadata) (relatedEntity : Value) : Value :=
  if !relatedEntity.isNull && isInstanceOfObject relatedEntity then
    r.getRelationIdMap relatedEntity
  else relatedEntity

/-- The changed test of the relation pass (lines 129-151): with a database snapshot the two
relation-id values are compared; with none the relation always counts as changed. -/
def relationChanged (r : RelationMetadata) (relatedEntity : Value) (dbEntity : Option Value) :
    Bool :=
  match dbEntity with
  | some dbe => !compareIds (relationIdValue r relatedEntity) (getProperty r.propertyName dbe)
  | none => true

/-- The sibling-subject search of the relation pass (line 155): the first Subject of the
batch that must be inserted and whose entity is, by identity, the related value. -/
def isInsertSubjectFor (relatedEntity : Value) (s2 : Subject) : Bool :=
  s2.mustBeInserted &&
    (match s2.entity with
     | some e => jsStrictEq e relatedEntity
     | none => false)

/-- Position of the first Subject of the batch satisfying `isInsertSubjectFor`; the index
models the reference to the sibling Subject that the source stores. -/
def findInsertSubjectIndex (allSubjects : List Subject) (relatedEntity : Value) : Option Nat :=
  match allSubjects with
  | [] => none
  | s2 :: rest =>
      if isInsertSubjectFor relatedEntity s2 then some 0
      else (findInsertSubjectIndex rest relatedEntity).map (· + 1)

/-- The relation upsert (lines 159-169): update the value of the first change record already
tagged with this relation, else append a new relation-tagged record. -/
def upsertRelationChange : List ChangeMap → RelationMetadata → ChangeValue → List ChangeMap
  | [], r, v => [{ column := none, relation := some r, value := v }]
  | cm :: rest, r, v =>
      if cm.relation = some r then { cm with value := v } :: rest
      else cm :: upsertRelationChange rest r v

/-- The value recorded for a changed relation (lines 153-168): the sibling Subject when the
related entity is, by identity, the entity of a pending-insert Subject of the batch, else
the related value itself. -/
def relationChangeValue (allSubjects : List Subject) (relatedEntity : Value) : ChangeValue :=
  match findInsertSubjectIndex allSubjects relatedEntity with
  | some i => ChangeValue.subjectRef i
  | none => ChangeValue.plain relatedEntity

/-- The body of the `forEach` over `relationsWithJoinColumns` in
`computeDiffRelationalColumns` (lines 119-170). -/
def computeRelationStep (allSubjects : List Subject) (entity : Value) (dbEntity : Option Value)
    (s : Subject) (r : RelationMetadata) : Subject :=
  let relatedEntity := getProperty r.propertyName entity
  if relatedEntity.isUndef then s
  else if relationChanged r relatedEntity dbEntity then
    let s1 :=
      match dbEntity with
      | some _ => { s with diffRelations := s.diffRelations ++ [r] }
      | none => s
    { s1 with changeMaps :=
        upsertRelationChange s1.changeMaps r (relationChangeValue allSubjects relatedEntity) }
  else s

/-- `SubjectChangedColumnsComputer.computeDiffRelationalColumns` (lines 113-171). -/
def computeDiffRelationalColumns (allSubjects : List Subject) (s : Subject) : Subject :=
  match s.entity with
  | none => s
  | some entity =>
      s.metadata.relationsWithJoinColumns.foldl
        (computeRelationStep allSubjects entity s.databaseEntity) s

/-- `SubjectChangedColumnsComputer.compute` (lines 18-23): run the column pass then the
relation pass on every subject of the batch.  The sibling search only reads `mustBeInserted`
and `entity`, which neither pass modifies, so passing the original batch is faithful to the
in-place `forEach` of the source. -/
def compute (subjects : List Subject) : List Subject :=
  subjects.map (fun s => computeDiffRelationalColumns subjects (computeDiffColumns s))

/-- The database-side operations `DeleteQueryBuilder.execute` can attempt, in the order they
appear in its body (lines 42-88 of `DeleteQueryBuilder.ts`). -/
inductive DbAction where
  | startTx : DbAction
  | bcastBefore : DbAction
  | runQuery : DbAction
  | bcastAfter : DbAction
  | commit : DbAction
  | rollback : DbAction
  | release : DbAction
deriving DecidableEq, Repr, Fintype

/-- The flags read by `DeleteQueryBuilder.execute`, plus a fault-injection flag for each
awaited collaborator call: whether that call succeeds or throws. -/
structure DeleteExecConfig where
  useTransaction : Bool
  isTransactionActive : Bool
  callListeners : Bool
  hasMetadata : Bool
  ownRunner : Bool
  startTxOk : Bool
  beforeOk : Bool
  queryOk : Bool
  afterOk : Bool
  commitOk : Bool
  rollbackOk : Bool
deriving DecidableEq, Repr

/-- The `finally` block of `DeleteQueryBuilder.execute` (lines 83-87): a query runner the
builder created for this call is released; a caller-supplied one is not. -/
def finishDelete (c : DeleteExecConfig) (tr : List DbAction) (r : Except DbAction Unit) :
    List DbAction × Except DbAction Unit :=
  if c.ownRunner then (tr ++ [DbAction.release], r) else (tr, r)

/-- The `catch` block of `DeleteQueryBuilder.execute` (lines 73-81): when this call started
the transaction, a rollback is attempted (its own failure swallowed); the original error is
rethrown either way; then the `finally` block runs. -/
def failDelete (c : DeleteExecConfig) (tr : List DbAction) (e : DbAction)
    (startedByUs : Bool) : List DbAction × Except DbAction Unit :=
  if startedByUs then finishDelete c (tr ++ [DbAction.rollback]) (Except.error e)
  else finishDelete c tr (Except.error e)

/-- `DeleteQueryBuilder.execute` (lines 42-88): the sequence of awaited collaborator calls it
attempts and the outcome it returns (`Except.error a` means the error thrown by step `a` is
rethrown).  `transactionStartedByUs` is set only after `startTransaction` returns, so a
failing start is not rolled back. -/
def executeDelete (c : DeleteExecConfig) : List DbAction × Except DbAction Unit :=
  let startNeeded := c.useTransaction && !c.isTransactionActive
  let bc := c.callListeners && c.hasMetadata
  if startNeeded && !c.startTxOk then
    failDelete c [DbAction.startTx] DbAction.startTx false
  else
    let tr0 := if startNeeded then [DbAction.startTx] else []
    if bc && !c.beforeOk then
      failDelete c (tr0 ++ [DbAction.bcastBefore]) DbAction.bcastBefore startNeeded
    else
      let tr1 := tr0 ++ (if bc then [DbAction.bcastBefore] else [])
      if !c.queryOk then
        failDelete c (tr1 ++ [DbAction.runQuery]) DbAction.runQuery startNeeded
      else
        let tr2 := tr1 ++ [DbAction.runQuery]
        if bc && !c.afterOk then
          failDelete c (tr2 ++ [DbAction.bcastAfter]) DbAction.bcastAfter startNeeded
        else
          let tr3 := tr2 ++ (if bc then [DbAction.bcastAfter] else [])
          if startNeeded then
            if !c.commitOk then
              failDelete c (tr3 ++ [DbAction.commit]) DbAction.commit true
            else finishDelete c (tr3 ++ [DbAction.commit]) (Except.ok ())
          else finishDelete c tr3 (Except.ok ())

theorem computeColumnStep_excluded (entity : Value) (dbe : Option Value) (s : Subject)
    (c : ColumnMetadata) (h : columnExcluded c = true) :
    computeColumnStep entity dbe s c = s := by
  simp [computeColumnStep, h]

theorem computeColumnStep_undef (entity : Value) (dbe : Option Value) (s : Subject)
    (c : ColumnMetadata) (h : (getProperty c.propertyName entity).isUndef = true) :
    computeColumnStep entity dbe s c = s := by
  by_cases hx : columnExcluded c = true <;> simp [computeColumnStep, hx, h]

theorem computeColumnStep_filtered (entity : Value) (dbe : Value) (s : Subject)
    (c : ColumnMetadata) (h : relationFilterApplies c entity = true) :
    computeColumnStep entity (some dbe) s c = s := by
  by_cases hx : columnExcluded c = true
  · simp [computeColumnStep, hx]
  · by_cases hu : (getProperty c.propertyName entity).isUndef = true <;>
      simp [computeColumnStep, hx, hu, h]

theorem computeColumnStep_equal (entity : Value) (dbe : Value) (s : Subject)
    (c : ColumnMetadata)
    (h : jsStrictEq
        (normalizePair c (getProperty c.propertyName entity) (getProperty c.propertyName dbe)).1
        (normalizePair c (getProperty c.propertyName entity) (getProperty c.propertyName dbe)).2
      = true) :
    computeColumnStep entity (some dbe) s c = s := by
  by_cases hx : columnExcluded c = true
  · simp [computeColumnStep, hx]
  · by_cases hu : (getProperty c.propertyName entity).isUndef = true
    · simp [computeColumnStep, hx, hu]
    · by_cases hf : relationFilterApplies c entity = true <;>
        simp [computeColumnStep, hx, hu, hf, h]

theorem computeColumnStep_fresh (entity : Value) (s : Subject) (c : ColumnMetadata)
    (hx : columnExcluded c = false)
    (hu : (getProperty c.propertyName entity).isUndef = false) :
    computeColumnStep entity none s c =
      applyColumnChange s c (getProperty c.propertyName entity) := by
  simp [computeColumnStep, hx, hu]

theorem computeColumnStep_changed (entity dbe : Value) (s : Subject) (c : ColumnMetadata)
    (hx : columnExcluded c = false)
    (hu : (getProperty c.propertyName entity).isUndef = false)
    (hf : relationFilterApplies c entity = false)
    (h : jsStrictEq
        (normalizePair c (getProperty c.propertyName entity) (getProperty c.propertyName dbe)).1
        (normalizePair c (getProperty c.propertyName entity) (getProperty c.propertyName dbe)).2
      = false) :
    computeColumnStep entity (some dbe) s c =
      applyColumnChange s c (getProperty c.propertyName entity) := by
  simp [computeColumnStep, hx, hu, hf, h]

theorem computeColumnStep_cases (entity : Value) (dbe : Option Value) (s : Subject)
    (c : ColumnMetadata) :
    computeColumnStep entity dbe s c = s ∨
    computeColumnStep entity dbe s c =
      applyColumnChange s c (getProperty c.propertyName entity) := by
  by_cases hx : columnExcluded c = true
  · exact Or.inl (computeColumnStep_excluded entity dbe s c hx)
  · by_cases hu : (getProperty c.propertyName entity).isUndef = true
    · exact Or.inl (computeColumnStep_undef entity dbe s c hu)
    · cases dbe with
      | none =>
          exact Or.inr (computeColumnStep_fresh entity s c
            (Bool.not_eq_true _ ▸ eq_false_of_ne_true hx) (eq_false_of_ne_true hu))
      | some d =>
          by_cases hf : relationFilterApplies c entity = true
          · exact Or.inl (computeColumnStep_filtered entity d s c hf)
          · by_cases he : jsStrictEq
                (normalizePair c (getProperty c.propertyName entity)
                  (getProperty c.propertyName d)).1
                (normalizePair c (getProperty c.propertyName entity)
                  (getProperty c.propertyName d)).2 = true
            · exact Or.inl (computeColumnStep_equal entity d s c he)
            · exact Or.inr (computeColumnStep_changed entity d s c
                (eq_false_of_ne_true hx) (eq_false_of_ne_true hu)
                (eq_false_of_ne_true hf) (eq_false_of_ne_true he))

/-- No trace of column `c` in the subject's outputs: `c` is not in `diffColumns` and no
change record is tagged with `c`. -/
def noColumnRecord (s : Subject) (c : ColumnMetadata) : Prop :=
  c ∉ s.diffColumns ∧ ∀ cm ∈ s.changeMaps, cm.column ≠ some c

theorem upsertColumnChange_column_ne (c : ColumnMetadata) (c' : ColumnMetadata)
    (v : ChangeValue) (hne : c ≠ c') :
    ∀ (l : List ChangeMap), (∀ cm ∈ l, cm.column ≠ some c) →
      ∀ cm ∈ upsertColumnChange l c' v, cm.column ≠ some c
  | [], _, cm, hm => by
      simp only [upsertColumnChange, List.mem_singleton] at hm
      subst hm
      intro hc
      exact hne (Option.some.inj hc).symm
  | cm0 :: rest, h, cm, hm => by
      by_cases h0 : cm0.column = some c'
      · simp only [upsertColumnChange, if_pos h0, List.mem_cons] at hm
        rcases hm with hm | hm
        · subst hm; exact h cm0 (List.mem_cons_self _ _)
        · exact h cm (List.mem_cons_of_mem _ hm)
      · simp only [upsertColumnChange, if_neg h0, List.mem_cons] at hm
        rcases hm with hm | hm
        · intro hc; exact h cm0 (List.mem_cons_self _ _) (hm ▸ hc)
        · exact upsertColumnChange_column_ne c c' v hne rest
            (fun x hx => h x (List.mem_cons_of_mem _ hx)) cm hm

theorem applyColumnChange_noColumnRecord (s : Subject) (c' : ColumnMetadata) (v : Value)
    (c : ColumnMetadata) (hne : c ≠ c') (h : noColumnRecord s c) :
    noColumnRecord (applyColumnChange s c' v) c := by
  obtain ⟨h1, h2⟩ := h
  constructor
  · simp only [applyColumnChange, List.mem_append, List.mem_singleton]
    rintro (hc | hc)
    · exact h1 hc
    · exact hne hc
  · exact upsertColumnChange_column_ne c c' _ hne s.changeMaps h2

theorem foldl_columnStep_noColumnRecord (entity : Value) (dbe : Option Value)
    (c : ColumnMetadata) (hskip : ∀ s', computeColumnStep entity dbe s' c = s') :
    ∀ (l : List ColumnMetadata) (s : Subject), noColumnRecord s c →
      noColumnRecord (l.foldl (computeColumnStep entity dbe) s) c
  | [], _, hs => hs
  | x :: xs, s, hs => by
      rw [List.foldl_cons]
      apply foldl_columnStep_noColumnRecord entity dbe c hskip xs
      by_cases hxc : x = c
      · subst hxc; rw [hskip]; exact hs
      · rcases computeColumnStep_cases entity dbe s x with h | h
        · rw [h]; exact hs
        · rw [h]
          exact applyColumnChange_noColumnRecord s x _ c (fun hh => hxc hh.symm) hs

theorem foldl_skip {α β : Type} (f : β → α → β) :
    ∀ (l : List α) (s : β), (∀ x ∈ l, ∀ s', f s' x = s') → l.foldl f s = s
  | [], _, _ => rfl
  | x :: xs, s, h => by
      rw [List.foldl_cons, h x (List.mem_cons_self x xs)]
      exact foldl_skip f xs s (fun y hy s' => h y (List.mem_cons_of_mem x hy) s')

theorem computeRelationStep_undef (all : List Subject) (entity : Value) (dbe : Option Value)
    (s : Subject) (r : RelationMetadata)
    (h : (getProperty r.propertyName entity).isUndef = true) :
    computeRelationStep all entity dbe s r = s := by
  simp [computeRelationStep, h]

theorem computeRelationStep_unchanged (all : List Subject) (entity : Value)
    (dbe : Option Value) (s : Subject) (r : RelationMetadata)
    (h : relationChanged r (getProperty r.propertyName entity) dbe = false) :
    computeRelationStep all entity dbe s r = s := by
  by_cases h1 : (getProperty r.propertyName entity).isUndef = true <;>
    simp [computeRelationStep, h1, h]

theorem computeRelationStep_changed_some (all : List Subject) (entity : Value) (dbe : Value)
    (s : Subject) (r : RelationMetadata)
    (h1 : (getProperty r.propertyName entity).isUndef = false)
    (h2 : relationChanged r (getProperty r.propertyName entity) (some dbe) = true) :
    computeRelationStep all entity (some dbe) s r =
      { s with diffRelations := s.diffRelations ++ [r],
               changeMaps := upsertRelationChange s.changeMaps r
                 (relationChangeValue all (getProperty r.propertyName entity)) } := by
  simp [computeRelationStep, h1, h2]

theorem computeRelationStep_changed_none (all : List Subject) (entity : Value)
    (s : Subject) (r : RelationMetadata)
    (h1 : (getProperty r.propertyName entity).isUndef = false) :
    computeRelationStep all entity none s r =
      { s with changeMaps := upsertRelationChange s.changeMaps r
                 (relationChangeValue all (getProperty r.propertyName entity)) } := by
  simp [computeRelationStep, relationChanged, h1]

theorem upsertRelationChange_mem (r : RelationMetadata) (v : ChangeValue) :
    ∀ (l : List ChangeMap),
      ∃ cm ∈ upsertRelationChange l r v, cm.relation = some r ∧ cm.value = v
  | [] => by
      refine ⟨⟨none, some r, v⟩, ?_, rfl, rfl⟩
      simp [upsertRelationChange]
  | cm0 :: rest => by
      by_cases h0 : cm0.relation = some r
      · refine ⟨{ cm0 with value := v }, ?_, h0, rfl⟩
        simp [upsertRelationChange, h0]
      · obtain ⟨cm, hm, hr, hv⟩ := upsertRelationChange_mem r v rest
        refine ⟨cm, ?_, hr, hv⟩
        simp only [upsertRelationChange, if_neg h0]
        exact List.mem_cons_of_mem _ hm

theorem upsertColumnChange_mem (c : ColumnMetadata) (v : ChangeValue) :
    ∀ (l : List ChangeMap),
      ∃ cm ∈ upsertColumnChange l c v, cm.column = some c ∧ cm.value = v
  | [] => by
      refine ⟨⟨some c, none, v⟩, ?_, rfl, rfl⟩
      simp [upsertColumnChange]
  | cm0 :: rest => by
      by_cases h0 : cm0.column = some c
      · refine ⟨{ cm0 with value := v }, ?_, h0, rfl⟩
        simp [upsertColumnChange, h0]
      · obtain ⟨cm, hm, hr, hv⟩ := upsertColumnChange_mem c v rest
        refine ⟨cm, ?_, hr, hv⟩
        simp only [upsertColumnChange, if_neg h0]
        exact List.mem_cons_of_mem _ hm

theorem findInsertSubjectIndex_spec (v : Value) :
    ∀ (l : List Subject) (i : Nat), findInsertSubjectIndex l v = some i →
      ∃ sib, l[i]? = some sib ∧ isInsertSubjectFor v sib = true
  | [], i, h => by simp [findInsertSubjectIndex] at h
  | s2 :: rest, i, h => by
      by_cases hp : isInsertSubjectFor v s2 = true
      · rw [findInsertSubjectIndex, if_pos hp] at h
        cases h
        exact ⟨s2, by simp, hp⟩
      · rw [findInsertSubjectIndex, if_neg hp] at h
        cases hr : findInsertSubjectIndex rest v with
        | none => rw [hr] at h; simp at h
        | some j =>
            rw [hr] at h
            simp only [Option.map_some'] at h
            cases h
            obtain ⟨sib, hg, hs⟩ := findInsertSubjectIndex_spec v rest j hr
            exact ⟨sib, by simpa using hg, hs⟩

theorem isInsertSubjectFor_spec (v : Value) (s2 : Subject)
    (h : isInsertSubjectFor v s2 = true) :
    s2.mustBeInserted = true ∧ ∃ e, s2.entity = some e ∧ jsStrictEq e v = true := by
  unfold isInsertSubjectFor at h
  rw [Bool.and_eq_true] at h
  obtain ⟨h1, h2⟩ := h
  refine ⟨h1, ?_⟩
  cases he : s2.entity with
  | none => rw [he] at h2; simp at h2
  | some e => rw [he] at h2; exact ⟨e, rfl, h2⟩

/-- Subject fixture builder: fresh diff state around the given metadata, entity, snapshot
and insert intent. -/
def mkSubject (meta : EntityMetadata) (e dbe : Option Value) (ins : Bool) : Subject :=
  { metadata := meta, entity := e, databaseEntity := dbe, mustBeInserted := ins,
    diffColumns := [], diffRelations := [], changeMaps := [] }

def nameColumn : ColumnMetadata :=
  { propertyName := "name", columnType := ColumnType.otherType "text",
    isVirtual := false, isDiscriminator := false, isUpdateDate := false,
    isVersion := false, isCreateDate := false, relationMetadata := none }

def tagRelation : RelationMetadata :=
  { propertyName := "tag", referencedPkNames := ["id"] }

def tagIdColumn : ColumnMetadata :=
  { propertyName := "tagId", columnType := ColumnType.otherType "int",
    isVirtual := false, isDiscriminator := false, isUpdateDate := false,
    isVersion := false, isCreateDate := false, relationMetadata := some tagRelation }

def noEntitySubject : Subject :=
  mkSubject { columns := [nameColumn], relationsWithJoinColumns := [tagRelation] }
    none none false

/-- C10: `compute`'s passes are a total no-op for a Subject whose entity is absent: the
column pass, the relation pass, and their composition all return the Subject unchanged, so
`diffColumns`, `diffRelations`, `changeMaps` and every other field are left untouched. -/
theorem claimC10_noEntity_noOp (all : List Subject) (s : Subject) (h : s.entity = none) :
    computeDiffColumns s = s ∧ computeDiffRelationalColumns all s = s ∧
      computeDiffRelationalColumns all (computeDiffColumns s) = s := by
  have h1 : computeDiffColumns s = s := by
    unfold computeDiffColumns
    rw [h]
  have h2 : computeDiffRelationalColumns all s = s := by
    unfold computeDiffRelationalColumns
    rw [h]
  exact ⟨h1, h2, by rw [h1, h2]⟩

/-- Witness for C10 at a concrete Subject with no entity. -/
theorem claimC10_witness :
    computeDiffColumns noEntitySubject = noEntitySubject ∧
    computeDiffRelationalColumns [noEntitySubject] noEntitySubject = noEntitySubject ∧
    computeDiffRelationalColumns [noEntitySubject] (computeDiffColumns noEntitySubject) =
      noEntitySubject :=
  claimC10_noEntity_noOp [noEntitySubject] noEntitySubject rfl

/-- C5: for a Subject with a stored snapshot, a column backed by an owning relation whose
entity-side related value is neither null nor undefined is skipped by the plain-column
pass: the column pass adds no `diffColumns` entry and no change record for that column. -/
theorem claimC5_relationBackedColumn_skipped (s : Subject) (entity dbe : Value)
    (c : ColumnMetadata) (r : RelationMetadata)
    (he : s.entity = some entity) (hd : s.databaseEntity = some dbe)
    (hrel : c.relationMetadata = some r)
    (hn : (getProperty r.propertyName entity).isNull = false)
    (hu : (getProperty r.propertyName entity).isUndef = false)
    (hclean : noColumnRecord s c) :
    noColumnRecord (computeDiffColumns s) c := by
  have hf : relationFilterApplies c entity = true := by
    simp [relationFilterApplies, hrel, hn, hu]
  have hskip : ∀ s', computeColumnStep entity (some dbe) s' c = s' := fun s' =>
    computeColumnStep_filtered entity dbe s' c hf
  unfold computeDiffColumns
  rw [he, hd]
  exact foldl_columnStep_noColumnRecord entity (some dbe) c hskip s.metadata.columns s hclean

def c5Entity : Value :=
  Value.obj 4 [("tagId", Value.intV 1), ("tag", Value.obj 5 [("id", Value.intV 1)])]

def c5Subject : Subject :=
  mkSubject { columns := [tagIdColumn], relationsWithJoinColumns := [tagRelation] }
    (some c5Entity) (some (Value.obj 6 [("tagId", Value.intV 2)])) false

/-- Witness for C5 at a concrete relation-backed column with a non-null related value. -/
theorem claimC5_witness : noColumnRecord (computeDiffColumns c5Subject) tagIdColumn :=
  claimC5_relationBackedColumn_skipped c5Subject c5Entity
    (Value.obj 6 [("tagId", Value.intV 2)]) tagIdColumn tagRelation rfl rfl rfl rfl rfl
    ⟨by simp [c5Subject, mkSubject], by simp [c5Subject, mkSubject]⟩

/-- C1: with both an entity and a stored snapshot, a column whose entity-side value equals
the stored value after the pass's type-aware normalization (`normalizePair`) is never
recorded: the column pass adds no `diffColumns` entry and no change record for it; and when
every column of the metadata is normalization-equal or not provided, the column pass leaves
the Subject entirely unchanged, so re-saving an unmodified entity yields an empty change
set. -/
theorem claimC1_normalizedEqual_noChange (s : Subject) (entity dbe : Value)
    (c : ColumnMetadata)
    (he : s.entity = some entity) (hd : s.databaseEntity = some dbe) :
    (jsStrictEq
        (normalizePair c (getProperty c.propertyName entity)
          (getProperty c.propertyName dbe)).1
        (normalizePair c (getProperty c.propertyName entity)
          (getProperty c.propertyName dbe)).2 = true →
      noColumnRecord s c → noColumnRecord (computeDiffColumns s) c)
  ∧ ((∀ c' ∈ s.metadata.columns,
        jsStrictEq
          (normalizePair c' (getProperty c'.propertyName entity)
            (getProperty c'.propertyName dbe)).1
          (normalizePair c' (getProperty c'.propertyName entity)
            (getProperty c'.propertyName dbe)).2 = true ∨
        (getProperty c'.propertyName entity).isUndef = true) →
      computeDiffColumns s = s) := by
  constructor
  · intro hnorm hclean
    have hskip : ∀ s', computeColumnStep entity (some dbe) s' c = s' := fun s' =>
      computeColumnStep_equal entity dbe s' c hnorm
    unfold computeDiffColumns
    rw [he, hd]
    exact foldl_columnStep_noColumnRecord entity (some dbe) c hskip s.metadata.columns s
      hclean
  · intro hall
    unfold computeDiffColumns
    rw [he, hd]
    apply foldl_skip
    intro c' hc' s'
    rcases hall c' hc' with h | h
    · exact computeColumnStep_equal entity dbe s' c' h
    · exact computeColumnStep_undef entity (some dbe) s' c' h

def c1Entity : Value := Value.obj 1 [("name", Value.strV "a")]

def c1Db : Value := Value.obj 2 [("name", Value.strV "a")]

def c1Subject : Subject :=
  mkSubject { columns := [nameColumn], relationsWithJoinColumns := [] }
    (some c1Entity) (some c1Db) false

/-- Witness for C1 at a concrete Subject whose only column holds an unchanged value. -/
theorem claimC1_witness :
    noColumnRecord (computeDiffColumns c1Subject) nameColumn ∧
      computeDiffColumns c1Subject = c1Subject := by
  have h := claimC1_normalizedEqual_noChange c1Subject c1Entity c1Db nameColumn rfl rfl
  constructor
  · exact h.1 rfl ⟨by simp [c1Subject, mkSubject], by simp [c1Subject, mkSubject]⟩
  · apply h.2
    intro c' hc'
    rw [show c1Subject.metadata.columns = [nameColumn] from rfl] at hc'
    rw [List.mem_singleton] at hc'
    subst hc'
    exact Or.inl rfl

/-- C4: an undefined entity-side value is skipped entirely by both the column pass and the
relation pass (the accumulated Subject is returned unchanged), while a provided value —
including an explicit null — with no stored snapshot is recorded as changed: the column is
pushed with its change record and the relation gets its change record. -/
theorem claimC4_undefinedSkipped_providedRecorded (all : List Subject) (entity : Value)
    (dbe : Option Value) (s : Subject) (c : ColumnMetadata) (r : RelationMetadata) :
    ((getProperty c.propertyName entity).isUndef = true →
        computeColumnStep entity dbe s c = s)
  ∧ ((getProperty r.propertyName entity).isUndef = true →
        computeRelationStep all entity dbe s r = s)
  ∧ ((getProperty c.propertyName entity).isUndef = false → columnExcluded c = false →
        computeColumnStep entity none s c =
          applyColumnChange s c (getProperty c.propertyName entity))
  ∧ ((getProperty r.propertyName entity).isUndef = false →
        ∃ cm ∈ (computeRelationStep all entity none s r).changeMaps,
          cm.relation = some r ∧
            cm.value = relationChangeValue all (getProperty r.propertyName entity)) := by
  refine ⟨?_, ?_, ?_, ?_⟩
  · exact computeColumnStep_undef entity dbe s c
  · exact computeRelationStep_undef all entity dbe s r
  · intro hu hx
    exact computeColumnStep_fresh entity s c hx hu
  · intro hu
    rw [computeRelationStep_changed_none all entity s r hu]
    exact upsertRelationChange_mem r _ s.changeMaps

def c4Entity : Value := Value.obj 3 [("name", Value.null), ("tag", Value.null)]

def c4Subject : Subject :=
  mkSubject { columns := [nameColumn], relationsWithJoinColumns := [tagRelation] }
    (some c4Entity) none false

/-- Witness for C4: explicit null with no snapshot is recorded for a column and a relation,
and an absent property is skipped. -/
theorem claimC4_witness :
    (computeColumnStep c4Entity none c4Subject nameColumn =
        applyColumnChange c4Subject nameColumn
          (getProperty nameColumn.propertyName c4Entity))
  ∧ (∃ cm ∈ (computeRelationStep [] c4Entity none c4Subject tagRelation).changeMaps,
        cm.relation = some tagRelation ∧
          cm.value = relationChangeValue [] (getProperty tagRelation.propertyName c4Entity))
  ∧ computeColumnStep (Value.obj 9 []) none c4Subject nameColumn = c4Subject := by
  refine ⟨?_, ?_, ?_⟩
  · exact (claimC4_undefinedSkipped_providedRecorded [] c4Entity none c4Subject nameColumn
      tagRelation).2.2.1 rfl rfl
  · exact (claimC4_undefinedSkipped_providedRecorded [] c4Entity none c4Subject nameColumn
      tagRelation).2.2.2 rfl
  · exact (claimC4_undefinedSkipped_providedRecorded [] (Value.obj 9 []) none c4Subject
      nameColumn tagRelation).1 rfl

/-- C6: when a relation change is recorded and the related value is, by identity, the entity
of a pending-insert Subject of the batch, the recorded change value is the reference to that
sibling Subject (its batch index in this model) rather than the related value or an id; the
referenced batch member really is a pending insert whose entity is identical to the related
value. -/
theorem claimC6_siblingInsertSubject_referenced (all : List Subject) (entity : Value)
    (dbe : Option Value) (s : Subject) (r : RelationMetadata) (i : Nat)
    (hu : (getProperty r.propertyName entity).isUndef = false)
    (hch : relationChanged r (getProperty r.propertyName entity) dbe = true)
    (hfind : findInsertSubjectIndex all (getProperty r.propertyName entity) = some i) :
    (∃ cm ∈ (computeRelationStep all entity dbe s r).changeMaps,
        cm.relation = some r ∧ cm.value = ChangeValue.subjectRef i)
  ∧ ∃ sib, all[i]? = some sib ∧ sib.mustBeInserted = true ∧
      ∃ e, sib.entity = some e ∧ jsStrictEq e (getProperty r.propertyName entity) = true := by
  have hv : relationChangeValue all (getProperty r.propertyName entity) =
      ChangeValue.subjectRef i := by
    simp [relationChangeValue, hfind]
  constructor
  · cases dbe with
    | none =>
        rw [computeRelationStep_changed_none all entity s r hu]
        simpa [hv] using
          upsertRelationChange_mem r
            (relationChangeValue all (getProperty r.propertyName entity)) s.changeMaps
    | some d =>
        rw [computeRelationStep_changed_some all entity d s r hu hch]
        simpa [hv] using
          upsertRelationChange_mem r
            (relationChangeValue all (getProperty r.propertyName entity)) s.changeMaps
  · obtain ⟨sib, hg, hs⟩ := findInsertSubjectIndex_spec _ all i hfind
    obtain ⟨h1, e, h2, h3⟩ := isInsertSubjectFor_spec _ sib hs
    exact ⟨sib, hg, h1, e, h2, h3⟩

def c6Inserted : Subject :=
  mkSubject { columns := [], relationsWithJoinColumns := [] } (some (Value.obj 7 [])) none
    true

def c6Entity : Value := Value.obj 8 [("tag", Value.obj 7 [])]

def c6Subject : Subject :=
  mkSubject { columns := [], relationsWithJoinColumns := [tagRelation] } (some c6Entity)
    none false

/-- Witness for C6: the batch's pending-insert sibling is stored by reference in the change
record. -/
theorem claimC6_witness :
    (∃ cm ∈ (computeRelationStep [c6Inserted, c6Subject] c6Entity none c6Subject
        tagRelation).changeMaps,
      cm.relation = some tagRelation ∧ cm.value = ChangeValue.subjectRef 0)
  ∧ ∃ sib, [c6Inserted, c6Subject][0]? = some sib ∧ sib.mustBeInserted = true ∧
      ∃ e, sib.entity = some e ∧
        jsStrictEq e (getProperty tagRelation.propertyName c6Entity) = true :=
  claimC6_siblingInsertSubject_referenced [c6Inserted, c6Subject] c6Entity none c6Subject
    tagRelation 0 rfl rfl rfl

def updatedAtColumn : ColumnMetadata :=
  { propertyName := "updatedAt", columnType := ColumnType.otherType "text",
    isVirtual := false, isDiscriminator := false, isUpdateDate := true,
    isVersion := false, isCreateDate := false, relationMetadata := none }

def c3Entity : Value := Value.obj 20 [("updatedAt", Value.strV "now")]

def c3Subject : Subject :=
  mkSubject { columns := [updatedAtColumn], relationsWithJoinColumns := [] }
    (some c3Entity) none false

/-- Counterexample to C3: a column carrying only the update-date flag is outside the claim's
exclusion list (virtual, discriminator, version, create-date) and has a provided value on a
fresh insert, so by the claim it must be diffed and recorded — yet the column pass skips it
and leaves the Subject unchanged. -/
theorem claimC3_counterexample :
    (updatedAtColumn.isVirtual = false ∧ updatedAtColumn.isDiscriminator = false ∧
      updatedAtColumn.isVersion = false ∧ updatedAtColumn.isCreateDate = false) ∧
    (getProperty updatedAtColumn.propertyName c3Entity).isUndef = false ∧
    c3Subject.databaseEntity = none ∧
    computeDiffColumns c3Subject = c3Subject :=
  ⟨⟨rfl, rfl, rfl, rfl⟩, rfl, rfl, rfl⟩

/-- C3 amended: the per-column pass skips exactly the virtual, discriminator, update-date,
version and create-date columns: a column with any of the five flags is ignored
unconditionally, and any other column with a provided value and no stored snapshot is
recorded as changed. -/
theorem claimC3_exclusionList_amended (entity : Value) (dbe : Option Value) (s : Subject)
    (c : ColumnMetadata) :
    (columnExcluded c =
      (c.isVirtual || c.isDiscriminator || c.isUpdateDate || c.isVersion || c.isCreateDate))
  ∧ (columnExcluded c = true → computeColumnStep entity dbe s c = s)
  ∧ (columnExcluded c = false → (getProperty c.propertyName entity).isUndef = false →
      computeColumnStep entity none s c =
        applyColumnChange s c (getProperty c.propertyName entity)) :=
  ⟨rfl, computeColumnStep_excluded entity dbe s c,
    fun hx hu => computeColumnStep_fresh entity s c hx hu⟩

/-- Witness for the amended C3 at the concrete update-date column. -/
theorem claimC3_witness :
    computeColumnStep c3Entity none c3Subject updatedAtColumn = c3Subject :=
  (claimC3_exclusionList_amended c3Entity none c3Subject updatedAtColumn).2.1 rfl

def c7Entity : Value := Value.obj 21 [("tag", Value.obj 22 [("id", Value.intV 1)])]

def c7Subject : Subject :=
  mkSubject { columns := [], relationsWithJoinColumns := [tagRelation] } (some c7Entity)
    none false

/-- Counterexample to C7: with no stored snapshot the relation's value is provided and
counts as changed — a change record is created — yet the relation is not recorded in
`diffRelations`, contradicting the claim that both happen in this case. -/
theorem claimC7_counterexample :
    (getProperty tagRelation.propertyName c7Entity).isUndef = false ∧
    relationChanged tagRelation (getProperty tagRelation.propertyName c7Entity) none = true ∧
    (computeDiffRelationalColumns [c7Subject] c7Subject).changeMaps.length = 1 ∧
    (computeDiffRelationalColumns [c7Subject] c7Subject).diffRelations = [] :=
  ⟨rfl, rfl, rfl, rfl⟩

/-- C7 amended: for a provided, changed owning relation the pass upserts a change record in
every case, but pushes the relation onto `diffRelations` only when a stored snapshot exists;
with no snapshot the change record is still upserted while `diffRelations` is left
unchanged. -/
theorem claimC7_changedRelation_recorded (all : List Subject) (entity : Value) (dbe : Value)
    (s : Subject) (r : RelationMetadata) :
    ((getProperty r.propertyName entity).isUndef = false →
      relationChanged r (getProperty r.propertyName entity) (some dbe) = true →
      (computeRelationStep all entity (some dbe) s r).diffRelations =
          s.diffRelations ++ [r] ∧
        ∃ cm ∈ (computeRelationStep all entity (some dbe) s r).changeMaps,
          cm.relation = some r ∧
            cm.value = relationChangeValue all (getProperty r.propertyName entity))
  ∧ ((getProperty r.propertyName entity).isUndef = false →
      (computeRelationStep all entity none s r).diffRelations = s.diffRelations ∧
        ∃ cm ∈ (computeRelationStep all entity none s r).changeMaps,
          cm.relation = some r ∧
            cm.value = relationChangeValue all (getProperty r.propertyName entity)) := by
  constructor
  · intro hu hch
    rw [computeRelationStep_changed_some all entity dbe s r hu hch]
    exact ⟨rfl, upsertRelationChange_mem r _ s.changeMaps⟩
  · intro hu
    rw [computeRelationStep_changed_none all entity s r hu]
    exact ⟨rfl, upsertRelationChange_mem r _ s.changeMaps⟩

/-- Witness for the amended C7 at the concrete snapshot-less Subject. -/
theorem claimC7_witness :
    (computeRelationStep [] c7Entity none c7Subject tagRelation).diffRelations =
        c7Subject.diffRelations ∧
      ∃ cm ∈ (computeRelationStep [] c7Entity none c7Subject tagRelation).changeMaps,
        cm.relation = some tagRelation ∧
          cm.value = relationChangeValue [] (getProperty tagRelation.propertyName c7Entity) :=
  (claimC7_changedRelation_recorded [] c7Entity (Value.obj 23 []) c7Subject tagRelation).2 rfl

def c2Snapshot : Value := Value.obj 13 [("tag", Value.obj 14 [("id", Value.intV 1)])]

def c2ScalarEntity : Value := Value.obj 10 [("tag", Value.intV 1)]

def c2FullEntity : Value := Value.obj 11 [("tag", Value.obj 12 [("id", Value.intV 1)])]

def c2ScalarSubject : Subject :=
  mkSubject { columns := [], relationsWithJoinColumns := [tagRelation] }
    (some c2ScalarEntity) (some c2Snapshot) false

def c2FullSubject : Subject :=
  mkSubject { columns := [], relationsWithJoinColumns := [tagRelation] }
    (some c2FullEntity) (some c2Snapshot) false

/-- Counterexample to C2: against the same stored snapshot (related value in id-map form),
assigning the full related entity populated only with id 1 is reduced to its primary-key
map and detected as unchanged, while assigning the bare scalar 1 is not reduced to a map —
it is compared as-is, compares unequal, and a change carrying the raw scalar is recorded:
the two forms produce different change/no-change outcomes and different records. -/
theorem claimC2_counterexample :
    relationIdValue tagRelation (getProperty "tag" c2ScalarEntity) = Value.intV 1 ∧
    relationIdValue tagRelation (getProperty "tag" c2FullEntity) =
      Value.obj 0 [("id", Value.intV 1)] ∧
    (computeDiffRelationalColumns [c2FullSubject] c2FullSubject).diffRelations = [] ∧
    (computeDiffRelationalColumns [c2FullSubject] c2FullSubject).changeMaps = [] ∧
    (computeDiffRelationalColumns [c2ScalarSubject] c2ScalarSubject).diffRelations =
      [tagRelation] ∧
    (computeDiffRelationalColumns [c2ScalarSubject] c2ScalarSubject).changeMaps.length = 1 :=
  ⟨rfl, rfl, rfl, rfl, rfl, rfl⟩

/-- C2 amended: a bare primary-key scalar assigned to an owning relation is not reduced to a
primary-key-value map — it is passed to the id comparison as-is — whereas a full related
entity is reduced via `getRelationIdMap`; and when a change is recorded (and the value is
not a pending-insert sibling) the record stores the originally assigned value, so the two
forms are compared and recorded differently. -/
theorem claimC2_scalarShortcut_amended (all : List Subject) (entity : Value) (dbe : Value)
    (s : Subject) (r : RelationMetadata) :
    (isInstanceOfObject (getProperty r.propertyName entity) = false →
        relationIdValue r (getProperty r.propertyName entity) =
          getProperty r.propertyName entity)
  ∧ ((getProperty r.propertyName entity).isNull = false →
      isInstanceOfObject (getProperty r.propertyName entity) = true →
        relationIdValue r (getProperty r.propertyName entity) =
          r.getRelationIdMap (getProperty r.propertyName entity))
  ∧ ((getProperty r.propertyName entity).isUndef = false →
      relationChanged r (getProperty r.propertyName entity) (some dbe) = true →
      findInsertSubjectIndex all (getProperty r.propertyName entity) = none →
        ∃ cm ∈ (computeRelationStep all entity (some dbe) s r).changeMaps,
          cm.relation = some r ∧
            cm.value = ChangeValue.plain (getProperty r.propertyName entity)) := by
  refine ⟨?_, ?_, ?_⟩
  · intro h
    simp [relationIdValue, h]
  · intro h1 h2
    simp [relationIdValue, h1, h2]
  · intro hu hch hf
    have hv : relationChangeValue all (getProperty r.propertyName entity) =
        ChangeValue.plain (getProperty r.propertyName entity) := by
      simp [relationChangeValue, hf]
    rw [computeRelationStep_changed_some all entity dbe s r hu hch]
    simpa [hv] using upsertRelationChange_mem r
      (relationChangeValue all (getProperty r.propertyName entity)) s.changeMaps

/-- Witness for the amended C2 at the concrete scalar-shortcut Subject. -/
theorem claimC2_witness :
    relationIdValue tagRelation (getProperty tagRelation.propertyName c2ScalarEntity) =
        getProperty tagRelation.propertyName c2ScalarEntity ∧
      ∃ cm ∈ (computeRelationStep [] c2ScalarEntity (some c2Snapshot) c2ScalarSubject
          tagRelation).changeMaps,
        cm.relation = some tagRelation ∧
          cm.value =
            ChangeValue.plain (getProperty tagRelation.propertyName c2ScalarEntity) := by
  have h := claimC2_scalarShortcut_amended [] c2ScalarEntity c2Snapshot c2ScalarSubject
    tagRelation
  exact ⟨h.1 rfl, h.2.2 rfl rfl rfl⟩

/-- A change record carries exactly one tag: either a column or a relation. -/
def oneTagged (cm : ChangeMap) : Prop :=
  (cm.column.isSome = true ∧ cm.relation = none) ∨
  (cm.column = none ∧ cm.relation.isSome = true)

/-- Number of change records tagged with the given column. -/
def countColumnRecords (c : ColumnMetadata) : List ChangeMap → Nat
  | [] => 0
  | cm :: rest => (if cm.column = some c then 1 else 0) + countColumnRecords c rest

/-- Number of change records tagged with the given relation. -/
def countRelationRecords (r : RelationMetadata) : List ChangeMap → Nat
  | [] => 0
  | cm :: rest => (if cm.relation = some r then 1 else 0) + countRelationRecords r rest

/-- Well-formedness of a change-map list: every record carries exactly one tag, and each
column and each relation owns at most one record. -/
def changeMapsWF (l : List ChangeMap) : Prop :=
  (∀ cm ∈ l, oneTagged cm) ∧
  (∀ c : ColumnMetadata, countColumnRecords c l ≤ 1) ∧
  (∀ r : RelationMetadata, countRelationRecords r l ≤ 1)

theorem changeMapsWF_nil : changeMapsWF [] := by
  refine ⟨by simp, ?_, ?_⟩
  · intro c
    simp [countColumnRecords]
  · intro r
    simp [countRelationRecords]

theorem countColumnRecords_upsertColumn_self (c : ColumnMetadata) (v : ChangeValue) :
    ∀ (l : List ChangeMap),
      countColumnRecords c (upsertColumnChange l c v) = max 1 (countColumnRecords c l)
  | [] => by simp [upsertColumnChange, countColumnRecords]
  | cm0 :: rest => by
      by_cases h0 : cm0.column = some c
      · rw [upsertColumnChange, if_pos h0]
        show (if cm0.column = some c then 1 else 0) + countColumnRecords c rest =
          max 1 ((if cm0.column = some c then 1 else 0) + countColumnRecords c rest)
        rw [if_pos h0]
        omega
      · rw [upsertColumnChange, if_neg h0]
        show (if cm0.column = some c then 1 else 0) +
            countColumnRecords c (upsertColumnChange rest c v) =
          max 1 ((if cm0.column = some c then 1 else 0) + countColumnRecords c rest)
        rw [if_neg h0, countColumnRecords_upsertColumn_self c v rest]
        omega

theorem countColumnRecords_upsertColumn_other (c c' : ColumnMetadata) (v : ChangeValue)
    (hne : c' ≠ c) :
    ∀ (l : List ChangeMap),
      countColumnRecords c' (upsertColumnChange l c v) = countColumnRecords c' l
  | [] => by
      rw [upsertColumnChange]
      show (if (some c : Option ColumnMetadata) = some c' then 1 else 0) + 0 = 0
      rw [if_neg (fun h => hne (Option.some.inj h).symm)]
  | cm0 :: rest => by
      by_cases h0 : cm0.column = some c
      · rw [upsertColumnChange, if_pos h0]
        show (if cm0.column = some c' then 1 else 0) + countColumnRecords c' rest =
          (if cm0.column = some c' then 1 else 0) + countColumnRecords c' rest
        rfl
      · rw [upsertColumnChange, if_neg h0]
        show (if cm0.column = some c' then 1 else 0) +
            countColumnRecords c' (upsertColumnChange rest c v) =
          (if cm0.column = some c' then 1 else 0) + countColumnRecords c' rest
        rw [countColumnRecords_upsertColumn_other c c' v hne rest]

theorem countRelationRecords_upsertColumn (r : RelationMetadata) (c : ColumnMetadata)
    (v : ChangeValue) :
    ∀ (l : List ChangeMap),
      countRelationRecords r (upsertColumnChange l c v) = countRelationRecords r l
  | [] => by
      rw [upsertColumnChange]
      show (if (none : Option RelationMetadata) = some r then 1 else 0) + 0 = 0
      rw [if_neg (fun h => Option.noConfusion h)]
  | cm0 :: rest => by
      by_cases h0 : cm0.column = some c
      · rw [upsertColumnChange, if_pos h0]
        rfl
      · rw [upsertColumnChange, if_neg h0]
        show (if cm0.relation = some r then 1 else 0) +
            countRelationRecords r (upsertColumnChange rest c v) =
          (if cm0.relation = some r then 1 else 0) + countRelationRecords r rest
        rw [countRelationRecords_upsertColumn r c v rest]

theorem countRelationRecords_upsertRelation_self (r : RelationMetadata) (v : ChangeValue) :
    ∀ (l : List ChangeMap),
      countRelationRecords r (upsertRelationChange l r v) = max 1 (countRelationRecords r l)
  | [] => by simp [upsertRelationChange, countRelationRecords]
  | cm0 :: rest => by
      by_cases h0 : cm0.relation = some r
      · rw [upsertRelationChange, if_pos h0]
        show (if cm0.relation = some r then 1 else 0) + countRelationRecords r rest =
          max 1 ((if cm0.relation = some r then 1 else 0) + countRelationRecords r rest)
        rw [if_pos h0]
        omega
      · rw [upsertRelationChange, if_neg h0]
        show (if cm0.relation = some r then 1 else 0) +
            countRelationRecords r (upsertRelationChange rest r v) =
          max 1 ((if cm0.relation = some r then 1 else 0) + countRelationRecords r rest)
        rw [if_neg h0, countRelationRecords_upsertRelation_self r v rest]
        omega

theorem countRelationRecords_upsertRelation_other (r r' : RelationMetadata)
    (v : ChangeValue) (hne : r' ≠ r) :
    ∀ (l : List ChangeMap),
      countRelationRecords r' (upsertRelationChange l r v) = countRelationRecords r' l
  | [] => by
      rw [upsertRelationChange]
      show (if (some r : Option RelationMetadata) = some r' then 1 else 0) + 0 = 0
      rw [if_neg (fun h => hne (Option.some.inj h).symm)]
  | cm0 :: rest => by
      by_cases h0 : cm0.relation = some r
      · rw [upsertRelationChange, if_pos h0]
        rfl
      · rw [upsertRelationChange, if_neg h0]
        show (if cm0.relation = some r' then 1 else 0) +
            countRelationRecords r' (upsertRelationChange rest r v) =
          (if cm0.relation = some r' then 1 else 0) + countRelationRecords r' rest
        rw [countRelationRecords_upsertRelation_other r r' v hne rest]

theorem countColumnRecords_upsertRelation (c : ColumnMetadata) (r : RelationMetadata)
    (v : ChangeValue) :
    ∀ (l : List ChangeMap),
      countColumnRecords c (upsertRelationChange l r v) = countColumnRecords c l
  | [] => by
      rw [upsertRelationChange]
      show (if (none : Option ColumnMetadata) = some c then 1 else 0) + 0 = 0
      rw [if_neg (fun h => Option.noConfusion h)]
  | cm0 :: rest => by
      by_cases h0 : cm0.relation = some r
      · rw [upsertRelationChange, if_pos h0]
        rfl
      · rw [upsertRelationChange, if_neg h0]
        show (if cm0.column = some c then 1 else 0) +
            countColumnRecords c (upsertRelationChange rest r v) =
          (if cm0.column = some c then 1 else 0) + countColumnRecords c rest
        rw [countColumnRecords_upsertRelation c r v rest]

theorem oneTagged_upsertColumn (c : ColumnMetadata) (v : ChangeValue) :
    ∀ (l : List ChangeMap), (∀ cm ∈ l, oneTagged cm) →
      ∀ cm ∈ upsertColumnChange l c v, oneTagged cm
  | [], _, cm, hm => by
      simp only [upsertColumnChange, List.mem_singleton] at hm
      subst hm
      exact Or.inl ⟨rfl, rfl⟩
  | cm0 :: rest, h, cm, hm => by
      by_cases h0 : cm0.column = some c
      · simp only [upsertColumnChange, if_pos h0, List.mem_cons] at hm
        rcases hm with hm | hm
        · subst hm
          rcases h cm0 (List.mem_cons_self _ _) with ht | ht
          · exact Or.inl ht
          · exact Or.inr ht
        · exact h cm (List.mem_cons_of_mem _ hm)
      · simp only [upsertColumnChange, if_neg h0, List.mem_cons] at hm
        rcases hm with hm | hm
        · rw [hm]; exact h cm0 (List.mem_cons_self _ _)
        · exact oneTagged_upsertColumn c v rest
            (fun x hx => h x (List.mem_cons_of_mem _ hx)) cm hm

theorem oneTagged_upsertRelation (r : RelationMetadata) (v : ChangeValue) :
    ∀ (l : List ChangeMap), (∀ cm ∈ l, oneTagged cm) →
      ∀ cm ∈ upsertRelationChange l r v, oneTagged cm
  | [], _, cm, hm => by
      simp only [upsertRelationChange, List.mem_singleton] at hm
      subst hm
      exact Or.inr ⟨rfl, rfl⟩
  | cm0 :: rest, h, cm, hm => by
      by_cases h0 : cm0.relation = some r
      · simp only [upsertRelationChange, if_pos h0, List.mem_cons] at hm
        rcases hm with hm | hm
        · subst hm
          rcases h cm0 (List.mem_cons_self _ _) with ht | ht
          · exact Or.inl ht
          · exact Or.inr ht
        · exact h cm (List.mem_cons_of_mem _ hm)
      · simp only [upsertRelationChange, if_neg h0, List.mem_cons] at hm
        rcases hm with hm | hm
        · rw [hm]; exact h cm0 (List.mem_cons_self _ _)
        · exact oneTagged_upsertRelation r v rest
            (fun x hx => h x (List.mem_cons_of_mem _ hx)) cm hm

theorem changeMapsWF_upsertColumn (l : List ChangeMap) (c : ColumnMetadata)
    (v : ChangeValue) (h : changeMapsWF l) : changeMapsWF (upsertColumnChange l c v) := by
  obtain ⟨h1, h2, h3⟩ := h
  refine ⟨oneTagged_upsertColumn c v l h1, ?_, ?_⟩
  · intro c'
    by_cases hc : c' = c
    · subst hc
      rw [countColumnRecords_upsertColumn_self c' v l]
      have := h2 c'
      omega
    · rw [countColumnRecords_upsertColumn_other c c' v hc l]
      exact h2 c'
  · intro r
    rw [countRelationRecords_upsertColumn r c v l]
    exact h3 r

theorem changeMapsWF_upsertRelation (l : List ChangeMap) (r : RelationMetadata)
    (v : ChangeValue) (h : changeMapsWF l) : changeMapsWF (upsertRelationChange l r v) := by
  obtain ⟨h1, h2, h3⟩ := h
  refine ⟨oneTagged_upsertRelation r v l h1, ?_, ?_⟩
  · intro c
    rw [countColumnRecords_upsertRelation c r v l]
    exact h2 c
  · intro r'
    by_cases hr : r' = r
    · subst hr
      rw [countRelationRecords_upsertRelation_self r' v l]
      have := h3 r'
      omega
    · rw [countRelationRecords_upsertRelation_other r r' v hr l]
      exact h3 r'

theorem computeRelationStep_changeMaps_cases (all : List Subject) (entity : Value)
    (dbe : Option Value) (s : Subject) (r : RelationMetadata) :
    (computeRelationStep all entity dbe s r).changeMaps = s.changeMaps ∨
    ∃ v, (computeRelationStep all entity dbe s r).changeMaps =
      upsertRelationChange s.changeMaps r v := by
  by_cases hu : (getProperty r.propertyName entity).isUndef = true
  · rw [computeRelationStep_undef all entity dbe s r hu]
    exact Or.inl rfl
  · cases dbe with
    | none =>
        rw [computeRelationStep_changed_none all entity s r (eq_false_of_ne_true hu)]
        exact Or.inr ⟨_, rfl⟩
    | some d =>
        by_cases hch : relationChanged r (getProperty r.propertyName entity) (some d) = true
        · rw [computeRelationStep_changed_some all entity d s r (eq_false_of_ne_true hu) hch]
          exact Or.inr ⟨_, rfl⟩
        · rw [computeRelationStep_unchanged all entity (some d) s r
            (eq_false_of_ne_true hch)]
          exact Or.inl rfl

theorem changeMapsWF_columnStep (entity : Value) (dbe : Option Value) (s : Subject)
    (c : ColumnMetadata) (h : changeMapsWF s.changeMaps) :
    changeMapsWF (computeColumnStep entity dbe s c).changeMaps := by
  rcases computeColumnStep_cases entity dbe s c with hc | hc
  · rw [hc]; exact h
  · rw [hc]
    exact changeMapsWF_upsertColumn s.changeMaps c _ h

theorem changeMapsWF_relationStep (all : List Subject) (entity : Value) (dbe : Option Value)
    (s : Subject) (r : RelationMetadata) (h : changeMapsWF s.changeMaps) :
    changeMapsWF (computeRelationStep all entity dbe s r).changeMaps := by
  rcases computeRelationStep_changeMaps_cases all entity dbe s r with hc | ⟨v, hc⟩
  · rw [hc]; exact h
  · rw [hc]
    exact changeMapsWF_upsertRelation s.changeMaps r v h

theorem changeMapsWF_foldl_columns (entity : Value) (dbe : Option Value) :
    ∀ (l : List ColumnMetadata) (s : Subject), changeMapsWF s.changeMaps →
      changeMapsWF ((l.foldl (computeColumnStep entity dbe) s).changeMaps)
  | [], _, h => h
  | x :: xs, s, h => by
      rw [List.foldl_cons]
      exact changeMapsWF_foldl_columns entity dbe xs _
        (changeMapsWF_columnStep entity dbe s x h)

theorem changeMapsWF_foldl_relations (all : List Subject) (entity : Value)
    (dbe : Option Value) :
    ∀ (l : List RelationMetadata) (s : Subject), changeMapsWF s.changeMaps →
      changeMapsWF ((l.foldl (computeRelationStep all entity dbe) s).changeMaps)
  | [], _, h => h
  | x :: xs, s, h => by
      rw [List.foldl_cons]
      exact changeMapsWF_foldl_relations all entity dbe xs _
        (changeMapsWF_relationStep all entity dbe s x h)

theorem changeMapsWF_computeDiffColumns (s : Subject) (h : changeMapsWF s.changeMaps) :
    changeMapsWF (computeDiffColumns s).changeMaps := by
  unfold computeDiffColumns
  cases he : s.entity with
  | none => exact h
  | some entity =>
      exact changeMapsWF_foldl_columns entity s.databaseEntity s.metadata.columns s h

theorem changeMapsWF_computeDiffRelationalColumns (all : List Subject) (s : Subject)
    (h : changeMapsWF s.changeMaps) :
    changeMapsWF (computeDiffRelationalColumns all s).changeMaps := by
  unfold computeDiffRelationalColumns
  cases he : s.entity with
  | none => exact h
  | some entity =>
      exact changeMapsWF_foldl_relations all entity s.databaseEntity
        s.metadata.relationsWithJoinColumns s h

/-- C8: after `compute` runs on a batch of fresh Subjects (empty change-map lists), every
entry of every Subject's `changeMaps` carries exactly one tag — a column or a relation,
never both and never neither — and each column and each relation owns at most one entry,
because a detected change updates the existing entry's value in place instead of appending
a duplicate. -/
theorem claimC8_changeMaps_wellFormed (subjects : List Subject)
    (h : ∀ s ∈ subjects, s.changeMaps = []) :
    ∀ s ∈ compute subjects, changeMapsWF s.changeMaps := by
  intro s hs
  rw [compute, List.mem_map] at hs
  obtain ⟨a, ha, rfl⟩ := hs
  apply changeMapsWF_computeDiffRelationalColumns
  apply changeMapsWF_computeDiffColumns
  rw [h a ha]
  exact changeMapsWF_nil

/-- Witness for C8 at a concrete two-Subject batch: the first computed Subject's change
maps are well-formed. -/
theorem claimC8_witness :
    changeMapsWF (computeDiffRelationalColumns [c5Subject, c6Subject]
      (computeDiffColumns c5Subject)).changeMaps := by
  have hmem : computeDiffRelationalColumns [c5Subject, c6Subject]
      (computeDiffColumns c5Subject) ∈ compute [c5Subject, c6Subject] := by
    rw [compute]
    exact List.mem_map_of_mem _ (List.mem_cons_self _ _)
  refine claimC8_changeMaps_wellFormed [c5Subject, c6Subject] ?_ _ hmem
  intro s hs
  simp only [List.mem_cons, List.not_mem_nil, or_false] at hs
  rcases hs with rfl | rfl <;> rfl

deriving instance DecidableEq for Except

def c9Config : DeleteExecConfig :=
  { useTransaction := true, isTransactionActive := false, callListeners := true,
    hasMetadata := true, ownRunner := true, startTxOk := true, beforeOk := true,
    queryOk := false, afterOk := true, commitOk := true, rollbackOk := true }

set_option maxHeartbeats 4000000 in
set_option synthInstance.maxHeartbeats 2000000 in
set_option synthInstance.maxSize 4000 in
/-- C9: when configured to use a transaction while none is active, `execute` starts one it
owns; after a successful start, any failing step — broadcasts, the query, or the commit —
makes it roll back the owned transaction and rethrow the original error; the commit is
attempted exactly when every preceding step succeeded; the call succeeds exactly when every
step it attempts succeeds; and when an outer transaction is already active it never starts,
commits, or rolls back any transaction. -/
theorem claimC9_transaction_ownership (c : DeleteExecConfig) :
    ((c.useTransaction = true ∧ c.isTransactionActive = false) →
        DbAction.startTx ∈ (executeDelete c).1)
  ∧ (c.useTransaction = true → c.isTransactionActive = false → c.startTxOk = true →
      ∀ e : DbAction, (executeDelete c).2 = Except.error e →
        DbAction.rollback ∈ (executeDelete c).1)
  ∧ (DbAction.commit ∈ (executeDelete c).1 ↔
      (c.useTransaction = true ∧ c.isTransactionActive = false ∧ c.startTxOk = true ∧
        c.queryOk = true ∧
        (c.callListeners = true ∧ c.hasMetadata = true →
          c.beforeOk = true ∧ c.afterOk = true)))
  ∧ ((executeDelete c).2 = Except.ok () ↔
      ((c.useTransaction = true ∧ c.isTransactionActive = false →
          c.startTxOk = true ∧ c.commitOk = true) ∧
        c.queryOk = true ∧
        (c.callListeners = true ∧ c.hasMetadata = true →
          c.beforeOk = true ∧ c.afterOk = true)))
  ∧ (c.isTransactionActive = true →
      DbAction.startTx ∉ (executeDelete c).1 ∧ DbAction.commit ∉ (executeDelete c).1 ∧
        DbAction.rollback ∉ (executeDelete c).1)
  ∧ (DbAction.rollback ∈ (executeDelete c).1 →
      c.useTransaction = true ∧ c.isTransactionActive = false ∧ c.startTxOk = true ∧
        (executeDelete c).2 ≠ Except.ok ()) := by
  rcases c with ⟨u, a, cl, hm, o, s1, b1, q1, a1, c1, r1⟩
  revert u a cl hm o s1 b1 q1 a1 c1 r1
  decide

/-- Witness for C9 at a concrete configuration whose query step fails inside an owned
transaction. -/
theorem claimC9_witness :
    DbAction.startTx ∈ (executeDelete c9Config).1 ∧
    DbAction.rollback ∈ (executeDelete c9Config).1 := by
  have h := claimC9_transaction_ownership c9Config
  exact ⟨h.1 ⟨rfl, rfl⟩, h.2.1 rfl rfl rfl DbAction.runQuery rfl⟩
